import Mathlib

/-!
Verification of the client-side streaming chat core of `src/public/chat.js`
(the `sendMessage` function and its helpers).

The embedding models:

* `JSON.parse` applied to a single line (`jsonParse`), over a JSON value
  model `Json`;
* JavaScript truthiness of the parsed `response` field (`truthy`) and the
  string coercion used by `responseText += jsonData.response`
  (`jsToString`);
* the per-line processing of the stream-read loop (`lineDelta`,
  `processLine`, `processLines`), splitting each decoded chunk on the
  newline character (`splitNl1`, `linesOf`) exactly as
  `chunk.split("\n")` does;
* the whole stream loop (`processStream`), chunks being the already
  decoded text chunks (the `TextDecoder` in streaming mode is assumed to
  decode correctly, so a chunk is modelled as a `List Char`);
* the surrounding `sendMessage` control flow over an explicit client
  state (`ClientState`, `sendMessage`), with DOM writes abstracted as an
  ordered list of display events (`DisplayEvent`).

Deliberate modelling notes, each claim-irrelevant:

* ECMAScript number-to-string formatting is approximated by keeping the
  numeric lexeme of the JSON source text (`Json.num`); no claim exercises
  a numeric `response` field.
* `\u` escapes denoting surrogate code units are mapped through
  `Char.ofNat` (replacement by NUL for invalid scalars); no claim uses
  `\u` escapes.
* `String.prototype.trim` is modelled by `jsTrim`, trimming the
  JavaScript whitespace characters that fit in Unicode scalars.
-/

/-- JSON values as produced by `JSON.parse` on one stream line.  Numbers
keep their source lexeme (their exact double value is never needed by the
client code under verification). Object fields keep source order;
duplicate keys are resolved last-wins at lookup, as in JavaScript. -/
inductive Json where
| null : Json
| bool (b : Bool) : Json
| num (lexeme : String) : Json
| str (s : String) : Json
| arr (elems : List Json) : Json
| obj (fields : List (String × Json)) : Json

/-- JSON whitespace accepted by `JSON.parse` between tokens: space, tab,
line feed, carriage return. -/
def isJsonWs (c : Char) : Bool :=
  List.contains [32, 9, 10, 13] c.toNat

/-- Drop leading JSON whitespace. -/
def skipWs : List Char → List Char
| [] => []
| c :: cs => if isJsonWs c then skipWs cs else c :: cs

/-- Value of one hexadecimal digit, by code point: digits 48-57,
lowercase 97-102, uppercase 65-70. -/
def hexDigitVal (c : Char) : Option Nat :=
  let n := c.toNat
  if 48 ≤ n && n ≤ 57 then some (n - 48)
  else if 97 ≤ n && n ≤ 102 then some (n - 87)
  else if 65 ≤ n && n ≤ 70 then some (n - 55)
  else none

/-- Code point of a `\uXXXX` escape. -/
def hex4Val (a b c d : Char) : Option Nat := do
  let va ← hexDigitVal a
  let vb ← hexDigitVal b
  let vc ← hexDigitVal c
  let vd ← hexDigitVal d
  pure (va * 4096 + vb * 256 + vc * 16 + vd)

/-- Body of a JSON string literal, after the opening quote: returns the
decoded characters and the input remaining after the closing quote.
Unescaped control characters and invalid escapes are rejected, as by
`JSON.parse`. -/
def parseStringBody : List Char → Option (List Char × List Char)
| [] => none
| '"' :: rest => some ([], rest)
| '\\' :: '"' :: rest => (parseStringBody rest).map (fun p => ('"' :: p.1, p.2))
| '\\' :: '\\' :: rest => (parseStringBody rest).map (fun p => ('\\' :: p.1, p.2))
| '\\' :: '/' :: rest => (parseStringBody rest).map (fun p => ('/' :: p.1, p.2))
| '\\' :: 'b' :: rest => (parseStringBody rest).map (fun p => ('\x08' :: p.1, p.2))
| '\\' :: 'f' :: rest => (parseStringBody rest).map (fun p => ('\x0c' :: p.1, p.2))
| '\\' :: 'n' :: rest => (parseStringBody rest).map (fun p => ('\n' :: p.1, p.2))
| '\\' :: 'r' :: rest => (parseStringBody rest).map (fun p => ('\r' :: p.1, p.2))
| '\\' :: 't' :: rest => (parseStringBody rest).map (fun p => ('\t' :: p.1, p.2))
| '\\' :: 'u' :: a :: b :: c :: d :: rest =>
    (hex4Val a b c d).bind (fun n =>
      (parseStringBody rest).map (fun p => (Char.ofNat n :: p.1, p.2)))
| '\\' :: _ => none
| c :: rest =>
    if c.toNat < 0x20 then none
    else (parseStringBody rest).map (fun p => (c :: p.1, p.2))

/-- Decimal digit test for the JSON number grammar (code points 48-57). -/
def isDigitChar (c : Char) : Bool := 48 ≤ c.toNat && c.toNat ≤ 57

/-- JSON number literal: returns its lexeme and the remaining input,
following the grammar `-? (0 | [1-9][0-9]*) (. [0-9]+)? ([eE][+-]?[0-9]+)?`. -/
def parseNumber (cs : List Char) : Option (String × List Char) :=
  let (sign, cs1) :=
    match cs with
    | '-' :: r => (['-'], r)
    | _ => (([] : List Char), cs)
  let intPart : Option (List Char × List Char) :=
    match cs1 with
    | '0' :: r => some (['0'], r)
    | c :: r =>
        if isDigitChar c && c != '0' then
          let (ds, r') := List.span isDigitChar r
          some (c :: ds, r')
        else none
    | [] => none
  match intPart with
  | none => none
  | some (ip, rest1) =>
    let fracPart : Option (List Char × List Char) :=
      match rest1 with
      | '.' :: r =>
          let (ds, r') := List.span isDigitChar r
          if ds.isEmpty then none else some ('.' :: ds, r')
      | _ => some ([], rest1)
    match fracPart with
    | none => none
    | some (fp, rest2) =>
      let expPart : Option (List Char × List Char) :=
        match rest2 with
        | e :: r =>
            if e == 'e' || e == 'E' then
              let (sgn, r1) :=
                match r with
                | '+' :: r2 => (['+'], r2)
                | '-' :: r2 => (['-'], r2)
                | _ => (([] : List Char), r)
              let (ds, r') := List.span isDigitChar r1
              if ds.isEmpty then none else some (e :: (sgn ++ ds), r')
            else some ([], rest2)
        | [] => some ([], rest2)
      match expPart with
      | none => none
      | some (ep, rest3) =>
          some (String.mk (sign ++ ip ++ fp ++ ep), rest3)

mutual

/-- One JSON value (leading whitespace allowed), fuelled recursive
descent; returns the value and the remaining input. -/
def parseValue : Nat → List Char → Option (Json × List Char)
| 0, _ => none
| fuel + 1, cs =>
  match skipWs cs with
  | 'n' :: 'u' :: 'l' :: 'l' :: rest => some (Json.null, rest)
  | 't' :: 'r' :: 'u' :: 'e' :: rest => some (Json.bool true, rest)
  | 'f' :: 'a' :: 'l' :: 's' :: 'e' :: rest => some (Json.bool false, rest)
  | '"' :: rest => (parseStringBody rest).map (fun p => (Json.str (String.mk p.1), p.2))
  | '[' :: rest =>
      (match skipWs rest with
       | ']' :: r => some (Json.arr [], r)
       | _ => (parseElems fuel rest).map (fun p => (Json.arr p.1, p.2)))
  | '{' :: rest =>
      (match skipWs rest with
       | '}' :: r => some (Json.obj [], r)
       | _ => (parseMembers fuel rest).map (fun p => (Json.obj p.1, p.2)))
  | cs' => (parseNumber cs').map (fun p => (Json.num p.1, p.2))

/-- Comma-separated array elements up to the closing bracket. -/
def parseElems : Nat → List Char → Option (List Json × List Char)
| 0, _ => none
| fuel + 1, cs => do
  let (j, r) ← parseValue fuel cs
  match skipWs r with
  | ',' :: r' => do
      let (es, r'') ← parseElems fuel r'
      pure (j :: es, r'')
  | ']' :: r' => pure ([j], r')
  | _ => none

/-- Comma-separated object members up to the closing brace. -/
def parseMembers : Nat → List Char → Option (List (String × Json) × List Char)
| 0, _ => none
| fuel + 1, cs =>
  match skipWs cs with
  | '"' :: rest => do
      let (k, r) ← parseStringBody rest
      match skipWs r with
      | ':' :: r' => do
          let (v, r'') ← parseValue fuel r'
          (match skipWs r'' with
           | ',' :: r3 => do
               let (fs, r4) ← parseMembers fuel r3
               pure ((String.mk k, v) :: fs, r4)
           | '}' :: r3 => pure ([(String.mk k, v)], r3)
           | _ => none)
      | _ => none
  | _ => none

end

/-- `JSON.parse(line)`: parse one complete JSON text, rejecting trailing
garbage; `none` models the thrown `SyntaxError`. -/
def jsonParse (line : List Char) : Option Json :=
  match parseValue (line.length + 1) line with
  | some (j, rest) => if skipWs rest = [] then some j else none
  | none => none

mutual

/-- JavaScript string coercion `String(v)` of a parsed JSON value, as
used by `responseText += jsonData.response` (chat.js line 141).  Number
formatting is approximated by the source lexeme (see the file header). -/
def jsToString : Json → String
| Json.null => "null"
| Json.bool true => "true"
| Json.bool false => "false"
| Json.num lexeme => lexeme
| Json.str s => s
| Json.arr es => String.intercalate "," (jsElemStrings es)
| Json.obj _ => "[object Object]"

/-- Element coercions of `Array.prototype.join(",")`: `null` renders
empty inside an array, every other element via `jsToString`. -/
def jsElemStrings : List Json → List String
| [] => []
| Json.null :: rest => "" :: jsElemStrings rest
| j :: rest => jsToString j :: jsElemStrings rest

end

/-- Whether a JSON number lexeme denotes the double 0 (or -0): true
exactly when every mantissa digit is 0; the exponent cannot change that. -/
def numIsZero (lexeme : String) : Bool :=
  (lexeme.data.takeWhile (fun c => c != 'e' && c != 'E')).all
    (fun c => c == '0' || c == '-' || c == '.')

/-- JavaScript truthiness of a parsed JSON value, as tested by
`if (jsonData.response)` (chat.js line 139): `null`, `false`, `0` and
`""` are falsy; every object or array is truthy. -/
def truthy : Json → Bool
| Json.null => false
| Json.bool b => b
| Json.num lexeme => !numIsZero lexeme
| Json.str s => s != ""
| Json.arr _ => true
| Json.obj _ => true

/-- Last-wins association lookup: `JSON.parse` lets a later duplicate
key overwrite an earlier one, so property access sees the last binding. -/
def lookupLast (fields : List (String × Json)) (key : String) : Option Json :=
  match fields with
  | [] => none
  | (k, v) :: rest =>
      match lookupLast rest key with
      | some w => some w
      | none => if k == key then some v else none

/-- Property access `jsonData.response` (chat.js line 139): a field of
an object, `undefined` (`none`) on every non-object.  On `null` the
access throws a `TypeError`, which the surrounding per-line `try/catch`
turns into a discarded line — observably identical to `none` here. -/
def responseOf : Json → Option Json
| Json.obj fields => lookupLast fields "response"
| _ => none

/-- Text contributed by one candidate line (chat.js lines 136-151):
`some d` when the line parses as JSON with a truthy `response` field
(`d` its string coercion), `none` when the parse throws or the field is
absent or falsy. -/
def lineDelta (line : List Char) : Option String :=
  match jsonParse line with
  | none => none
  | some j =>
      match responseOf j with
      | some v => if truthy v then some (jsToString v) else none
      | none => none

/-- One iteration of the `for (const line of lines)` body: thread the
accumulator `responseText` and record the delta dispatched to the
display (the new substring appended by `textContent = responseText`). -/
def processLine (acc : String) (line : List Char) : String × List String :=
  match lineDelta line with
  | some d => (acc ++ d, [d])
  | none => (acc, [])

/-- Fold of `processLine` over the candidate lines of one chunk,
accumulating the display events emitted so far. -/
def processLines (acc : String) (evs : List String) : List (List Char) → String × List String
| [] => (acc, evs)
| l :: ls =>
    let p := processLine acc l
    processLines p.1 (evs ++ p.2) ls

/-- Split on the newline character, as `chunk.split("\n")` does,
presented as (complete newline-terminated lines, trailing remainder):
the JavaScript result is the first component followed by the second. -/
def splitNl1 : List Char → List (List Char) × List Char
| [] => ([], [])
| c :: cs =>
    let p := splitNl1 cs
    if c = '\n' then ([] :: p.1, p.2)
    else
      match p.1 with
      | [] => ([], c :: p.2)
      | l :: ls => ((c :: l) :: ls, p.2)

/-- The exact list returned by `chunk.split("\n")` (chat.js line 135). -/
def linesOf (chunk : List Char) : List (List Char) :=
  (splitNl1 chunk).1 ++ [(splitNl1 chunk).2]

/-- How `splitNl1` results compose across list append (the last, possibly
unterminated, line of the left part merges into the first line of the
right part). -/
def mergeSplit (a b : List (List Char) × List Char) : List (List Char) × List Char :=
  match b.1 with
  | [] => (a.1, a.2 ++ b.2)
  | l :: ls => (a.1 ++ (a.2 ++ l) :: ls, b.2)

/-- Processing of one decoded chunk inside the `while (true)` read loop
(chat.js lines 131-151). -/
def processChunk (st : String × List String) (chunk : List Char) : String × List String :=
  processLines st.1 st.2 (linesOf chunk)

/-- The whole stream loop: final accumulator `responseText` and the
ordered list of appended deltas, starting from the empty accumulator
(chat.js lines 122-152).  Chunks are the decoded text chunks. -/
def processStream (chunks : List (List Char)) : String × List String :=
  chunks.foldl processChunk ("", [])

/-- Concatenation of a list of strings in order. -/
def concatStrings : List String → String
| [] => ""
| s :: rest => s ++ concatStrings rest

/-- Deltas contributed by one chunk. -/
def chunkDeltas (chunk : List Char) : List String :=
  (linesOf chunk).filterMap lineDelta

/-- Deltas contributed by a whole stream, in receive order. -/
def streamDeltas (chunks : List (List Char)) : List String :=
  ((chunks.map linesOf).flatten).filterMap lineDelta

/-- One message of the conversation history (`chatHistory` entries). -/
structure Msg where
  role : String
  content : String
deriving DecidableEq

/-- Observable display-sink events of one `sendMessage` run, in order:
the rendered user turn (`addMessageToChat("user", ...)`), the empty
assistant placeholder element, each incremental text append, and the
fallback assistant error bubble (`addMessageToChat("assistant", ...)`). -/
inductive DisplayEvent where
| userTurn (content : String) : DisplayEvent
| assistantPlaceholder : DisplayEvent
| appendDelta (delta : String) : DisplayEvent
| assistantTurn (content : String) : DisplayEvent
deriving DecidableEq

/-- Whether a display event is a rendered assistant bubble
(`addMessageToChat("assistant", ...)`), as opposed to the streaming
placeholder updates. -/
def isAssistantTurn : DisplayEvent → Bool
| DisplayEvent.assistantTurn _ => true
| _ => false

/-- Outcome of the fetch and stream read, fixed in advance as the
environment's behaviour: `success chunks` means an ok status and a
stream delivering `chunks` then end-of-data; `failure chunksBefore`
means a rejected fetch or non-ok status (`chunksBefore = []`) or a
stream error after delivering `chunksBefore` — every path that reaches
the `catch` block. -/
inductive FetchResult where
| failure (chunksBefore : List (List Char)) : FetchResult
| success (chunks : List (List Char)) : FetchResult
deriving DecidableEq

/-- Client state owned by the session: the conversation history and the
in-flight guard (`chatHistory` and `isProcessing`, chat.js lines 16-23). -/
structure ClientState where
  chatHistory : List Msg
  isProcessing : Bool
deriving DecidableEq

/-- Literal fallback error text (chat.js lines 158-161). -/
def errorText : String := "Sorry, there was an error processing your request."

/-- Initial greeting message (chat.js lines 16-22). -/
def initialGreeting : String :=
  "Hello! I\x27m an LLM chat app powered by Cloudflare Workers AI. How can I help you today?"

/-- Initial client state: greeting in history, not processing. -/
def initState : ClientState :=
  { chatHistory := [{ role := "assistant", content := initialGreeting }],
    isProcessing := false }

/-- JavaScript whitespace trimmed by `String.prototype.trim` (those
characters that are Unicode scalar values), by code point: space, tab,
LF, CR, VT, FF, NBSP, BOM, and the line and paragraph separators. -/
def isJsWhitespace (c : Char) : Bool :=
  List.contains [32, 9, 10, 13, 11, 12, 160, 65279, 8232, 8233] c.toNat

/-- Model of `userInput.value.trim()` (chat.js line 50). -/
def jsTrim (s : String) : String :=
  String.mk (((s.data.dropWhile isJsWhitespace).reverse.dropWhile isJsWhitespace).reverse)

/-- Guard of chat.js line 54:
`if ((message === "" && !imageFile) || isProcessing) return;`. -/
def submissionBlocked (st : ClientState) (rawInput : String) (hasImage : Bool) : Bool :=
  (jsTrim rawInput == "" && !hasImage) || st.isProcessing

/-- Rendered content of the user turn (chat.js lines 63-66): the trimmed
message, with the attachment annotation appended when an image is
present. -/
def userDisplayContent (message : String) (hasImage : Bool) : String :=
  if hasImage then
    (if message == "" then "[Image attached]" else message ++ "\n[Image attached]")
  else message

/-- The `sendMessage` control flow (chat.js lines 49-173) as a state
transformer.  The DOM is abstracted to the ordered event list; input
clearing, the typing indicator and element disabling carry no state the
claims mention.  On success the assembled text becomes one assistant
history entry; on failure the error bubble is displayed and nothing
beyond the user message is committed; `isProcessing` is cleared in the
`finally` block on every path. -/
def sendMessage (st : ClientState) (rawInput : String) (hasImage : Bool)
    (outcome : FetchResult) : ClientState × List DisplayEvent :=
  let message := jsTrim rawInput
  if submissionBlocked st rawInput hasImage then (st, [])
  else
    let shown := userDisplayContent message hasImage
    let hist1 := st.chatHistory ++ [{ role := "user", content := message }]
    match outcome with
    | FetchResult.success chunks =>
        let p := processStream chunks
        ({ chatHistory := hist1 ++ [{ role := "assistant", content := p.1 }],
           isProcessing := false },
         DisplayEvent.userTurn shown :: DisplayEvent.assistantPlaceholder ::
           p.2.map DisplayEvent.appendDelta)
    | FetchResult.failure chunksBefore =>
        let p := processStream chunksBefore
        ({ chatHistory := hist1, isProcessing := false },
         DisplayEvent.userTurn shown :: DisplayEvent.assistantPlaceholder ::
           (p.2.map DisplayEvent.appendDelta ++ [DisplayEvent.assistantTurn errorText]))

/-- One user submission together with the environment's response to it. -/
structure Submission where
  rawInput : String
  hasImage : Bool
  outcome : FetchResult

/-- A whole session: fold `sendMessage` over a list of submissions from
the initial state. -/
def runSession (subs : List Submission) : ClientState :=
  subs.foldl (fun st sub => (sendMessage st sub.rawInput sub.hasImage sub.outcome).1) initState

/-- Reading of claim C1's event rule: the coerced `response` field of a
line that parses as a JSON object carrying that field, with no
truthiness restriction. -/
def responseFieldOfLine (line : List Char) : Option String :=
  match jsonParse line with
  | some (Json.obj fields) => (lookupLast fields "response").map jsToString
  | _ => none

/-- All `response` fields of lines parsing as JSON objects, in receive
order — the event list claim C1 asserts. -/
def objectResponseFields (chunks : List (List Char)) : List String :=
  ((chunks.map linesOf).flatten).filterMap responseFieldOfLine

theorem string_empty_append (s : String) : "" ++ s = s := by
  cases s with
  | mk l =>
      show String.mk ([] ++ l) = String.mk l
      rw [List.nil_append]

theorem string_append_empty (s : String) : s ++ "" = s := by
  cases s with
  | mk l =>
      show String.mk (l ++ []) = String.mk l
      rw [List.append_nil]

theorem concatStrings_cons (s : String) (l : List String) :
    concatStrings (s :: l) = s ++ concatStrings l := rfl

theorem concatStrings_append (a b : List String) :
    concatStrings (a ++ b) = concatStrings a ++ concatStrings b := by
  induction a with
  | nil => simp [concatStrings, string_empty_append]
  | cons s t ih => simp [concatStrings, ih, String.append_assoc]

theorem lineDelta_nil : lineDelta [] = none := rfl

theorem processLines_spec : ∀ (ls : List (List Char)) (acc : String) (evs : List String),
    processLines acc evs ls
      = (acc ++ concatStrings (ls.filterMap lineDelta), evs ++ ls.filterMap lineDelta)
| [], acc, evs => by
    simp [processLines, concatStrings, string_append_empty]
| l :: ls, acc, evs => by
    cases h : lineDelta l with
    | none =>
        simp [processLines, processLine, h, processLines_spec ls acc evs]
    | some d =>
        simp [processLines, processLine, h, processLines_spec ls (acc ++ d) (evs ++ [d]),
          concatStrings_cons, String.append_assoc]

theorem streamDeltas_nil : streamDeltas [] = [] := rfl

theorem streamDeltas_cons (c : List Char) (rest : List (List Char)) :
    streamDeltas (c :: rest) = chunkDeltas c ++ streamDeltas rest := by
  simp [streamDeltas, chunkDeltas, List.filterMap_append]

theorem processStream_from : ∀ (chunks : List (List Char)) (acc : String) (evs : List String),
    chunks.foldl processChunk (acc, evs)
      = (acc ++ concatStrings (streamDeltas chunks), evs ++ streamDeltas chunks)
| [], acc, evs => by
    simp [streamDeltas, concatStrings, string_append_empty]
| c :: rest, acc, evs => by
    have h1 : processChunk (acc, evs) c = processLines acc evs (linesOf c) := rfl
    simp only [List.foldl_cons, h1, processLines_spec]
    rw [processStream_from rest]
    simp [streamDeltas_cons, chunkDeltas, concatStrings_append, String.append_assoc,
      List.append_assoc]

/-- The stream loop computes exactly the ordered deltas and their
concatenation: shared bridge between the stateful fold and the
declarative description. -/
theorem processStream_spec (chunks : List (List Char)) :
    processStream chunks = (concatStrings (streamDeltas chunks), streamDeltas chunks) := by
  have h := processStream_from chunks "" []
  simpa [processStream, string_empty_append] using h

theorem splitNl1_append : ∀ (a b : List Char),
    splitNl1 (a ++ b) = mergeSplit (splitNl1 a) (splitNl1 b)
| [], b => by
    rcases hb : splitNl1 b with ⟨lsb, rb⟩
    cases lsb <;> simp [splitNl1, mergeSplit, hb]
| c :: cs, b => by
    have ih := splitNl1_append cs b
    rcases hcs : splitNl1 cs with ⟨lsc, rc⟩
    rcases hb : splitNl1 b with ⟨lsb, rb⟩
    rw [hcs, hb] at ih
    by_cases hc : c = '\n'
    · subst hc
      cases lsb <;>
        simp [splitNl1, mergeSplit, ih, hcs, hb, List.cons_append]
    · cases lsb <;> cases lsc <;>
        simp [splitNl1, mergeSplit, ih, hcs, hb, hc, List.cons_append, List.append_assoc]

theorem chunkDeltas_no_trailing (c : List Char) (h : (splitNl1 c).2 = []) :
    chunkDeltas c = ((splitNl1 c).1).filterMap lineDelta := by
  simp [chunkDeltas, linesOf, h, List.filterMap_append, lineDelta_nil]

/-- When every chunk boundary sits on a newline, the stream's deltas are
those of the fully joined text. -/
theorem streamDeltas_aligned : ∀ (chunks : List (List Char)),
    (∀ c ∈ chunks, (splitNl1 c).2 = []) →
    streamDeltas chunks = (linesOf chunks.flatten).filterMap lineDelta
| [], _ => by
    simp [streamDeltas, linesOf, splitNl1, lineDelta_nil]
| c :: rest, h => by
    have hc := h c (by simp)
    have ih := streamDeltas_aligned rest (fun x hx => h x (by simp [hx]))
    have hsplit := splitNl1_append c rest.flatten
    rcases hr : splitNl1 rest.flatten with ⟨lsr, rr⟩
    rw [hr] at hsplit
    rcases hcc : splitNl1 c with ⟨lsc, rc⟩
    rw [hcc] at hsplit hc
    simp only at hc
    subst hc
    rw [streamDeltas_cons, chunkDeltas_no_trailing c (by rw [hcc])]
    rw [ih]
    cases lsr <;>
      simp [List.flatten_cons, linesOf, hsplit, hcc, hr, mergeSplit,
        List.filterMap_append, List.append_assoc]

/-- Claim C1, as stated, is false on the code at the concrete stream
whose single chunk is the line with an empty `response` field: the line
parses as a JSON object carrying a `response` field (so the claim
demands one append event for it), but the truthiness test
`if (jsonData.response)` suppresses the event — the code emits zero
events, not one per such line. -/
theorem claim1_counterexample :
    objectResponseFields [("\x7b\"response\":\"\"\x7d\n").data] = [""]
    ∧ (processStream [("\x7b\"response\":\"\"\x7d\n").data]).2 = []
    ∧ processStream [("\x7b\"response\":\"\"\x7d\n").data]
        ≠ (concatStrings (objectResponseFields [("\x7b\"response\":\"\"\x7d\n").data]),
           objectResponseFields [("\x7b\"response\":\"\"\x7d\n").data]) :=
  ⟨rfl, rfl, by decide⟩

/-- Claim C1 (amended): for every response stream, the final
accumulated assistant text equals the concatenation, in receive order,
of the `response` field of every line that parses as JSON with a truthy
`response` field, and one incremental-append event is emitted per such
line, in that same order; the two lines of the claim's example yield
accumulator "Hi there" and the two ordered events "Hi", " there". -/
theorem claim1_stream_is_ordered_concat_of_truthy_responses :
    (∀ chunks : List (List Char),
        processStream chunks = (concatStrings (streamDeltas chunks), streamDeltas chunks))
    ∧ processStream [("\x7b\"response\":\"Hi\"\x7d\n\x7b\"response\":\" there\"\x7d\n").data]
        = ("Hi there", ["Hi", " there"]) :=
  ⟨processStream_spec, rfl⟩

/-- Claim C2, as stated, is false on the code: the same logical bytes,
split once as a single chunk and once with a chunk boundary inside the
JSON record, give different accumulators ("Hello" versus ""), so the
assembled text is not independent of the transport chunking. -/
theorem claim2_counterexample :
    List.flatten [("\x7b\"response\":\"Hel").data, ("lo\"\x7d\n").data]
      = List.flatten [("\x7b\"response\":\"Hello\"\x7d\n").data]
    ∧ processStream [("\x7b\"response\":\"Hel").data, ("lo\"\x7d\n").data]
        ≠ processStream [("\x7b\"response\":\"Hello\"\x7d\n").data] :=
  ⟨by decide, by decide⟩

/-- Claim C2 (amended): feeding the same logical bytes to the Assembler
under any partition into chunks whose boundaries all fall on newline
boundaries (no line split across chunks) yields an identical final
accumulator and identical ordered displayed deltas. -/
theorem claim2_newline_aligned_chunking_invariance
    (chunks1 chunks2 : List (List Char))
    (h1 : ∀ c ∈ chunks1, (splitNl1 c).2 = [])
    (h2 : ∀ c ∈ chunks2, (splitNl1 c).2 = [])
    (hsame : chunks1.flatten = chunks2.flatten) :
    processStream chunks1 = processStream chunks2 := by
  rw [processStream_spec, processStream_spec,
    streamDeltas_aligned chunks1 h1, streamDeltas_aligned chunks2 h2, hsame]

/-- Witness for the amended C2: one chunk holding two complete lines,
against two chunks of one line each, same bytes, same result. -/
theorem claim2_newline_aligned_chunking_invariance_witness :
    (∀ c ∈ [("\x7b\"response\":\"Hi\"\x7d\n\x7b\"response\":\" there\"\x7d\n").data],
        (splitNl1 c).2 = ([] : List Char))
    ∧ (∀ c ∈ [("\x7b\"response\":\"Hi\"\x7d\n").data, ("\x7b\"response\":\" there\"\x7d\n").data],
        (splitNl1 c).2 = ([] : List Char))
    ∧ List.flatten [("\x7b\"response\":\"Hi\"\x7d\n\x7b\"response\":\" there\"\x7d\n").data]
        = List.flatten [("\x7b\"response\":\"Hi\"\x7d\n").data, ("\x7b\"response\":\" there\"\x7d\n").data]
    ∧ processStream [("\x7b\"response\":\"Hi\"\x7d\n\x7b\"response\":\" there\"\x7d\n").data]
        = processStream [("\x7b\"response\":\"Hi\"\x7d\n").data, ("\x7b\"response\":\" there\"\x7d\n").data] :=
  ⟨by decide, by decide, by decide,
    claim2_newline_aligned_chunking_invariance _ _ (by decide) (by decide) (by decide)⟩

/-- Claim C3: with the record split as chunk "\x7b\"response\":\"Hel" then
chunk "lo\"\x7d\n", both candidate lines fail `JSON.parse`, both are
discarded, and the accumulator stays empty with no events — split
records are not reassembled across chunks. -/
theorem claim3_split_record_is_dropped :
    jsonParse ("\x7b\"response\":\"Hel").data = none
    ∧ jsonParse ("lo\"\x7d").data = none
    ∧ linesOf ("\x7b\"response\":\"Hel").data = [("\x7b\"response\":\"Hel").data]
    ∧ linesOf ("lo\"\x7d\n").data = [("lo\"\x7d").data, []]
    ∧ processStream [("\x7b\"response\":\"Hel").data, ("lo\"\x7d\n").data] = ("", []) :=
  ⟨rfl, rfl, rfl, rfl, rfl⟩

/-- Claim C4: on every unblocked submission exactly one user message is
appended to the conversation, and on a successful exchange exactly one
assistant message directly after it — the final history is the prior
history plus that pair, in that order; on failure only the user message
is appended. -/
theorem claim4_exactly_one_user_then_assistant
    (st : ClientState) (rawInput : String) (hasImage : Bool)
    (chunks pre : List (List Char))
    (h : submissionBlocked st rawInput hasImage = false) :
    (sendMessage st rawInput hasImage (FetchResult.success chunks)).1.chatHistory
      = st.chatHistory
        ++ [{ role := "user", content := jsTrim rawInput },
            { role := "assistant", content := (processStream chunks).1 }]
    ∧ (sendMessage st rawInput hasImage (FetchResult.failure pre)).1.chatHistory
      = st.chatHistory ++ [{ role := "user", content := jsTrim rawInput }] := by
  constructor <;> simp [sendMessage, h]

/-- Witness for C4 at a concrete unblocked submission. -/
theorem claim4_exactly_one_user_then_assistant_witness :
    submissionBlocked initState "hi" false = false
    ∧ (sendMessage initState "hi" false
          (FetchResult.success [("\x7b\"response\":\"ok\"\x7d\n").data])).1.chatHistory
        = initState.chatHistory
          ++ [{ role := "user", content := jsTrim "hi" },
              { role := "assistant",
                content := (processStream [("\x7b\"response\":\"ok\"\x7d\n").data]).1 }]
    ∧ (sendMessage initState "hi" false (FetchResult.failure [])).1.chatHistory
        = initState.chatHistory ++ [{ role := "user", content := jsTrim "hi" }] :=
  let H := claim4_exactly_one_user_then_assistant initState "hi" false
      [("\x7b\"response\":\"ok\"\x7d\n").data] [] (by decide)
  ⟨by decide, H.1, H.2⟩

/-- Claim C5: on a transport failure (rejected fetch, non-success
status, or stream error) after an unblocked submission, exactly one
fallback assistant bubble with the literal error text is displayed, the
accumulated partial text is not committed — the history is the prior
turns plus only the user message — and the in-flight flag is cleared. -/
theorem claim5_transport_failure_policy
    (st : ClientState) (rawInput : String) (hasImage : Bool) (pre : List (List Char))
    (h : submissionBlocked st rawInput hasImage = false) :
    (sendMessage st rawInput hasImage (FetchResult.failure pre)).2.filter isAssistantTurn
        = [DisplayEvent.assistantTurn errorText]
    ∧ (sendMessage st rawInput hasImage (FetchResult.failure pre)).1.chatHistory
        = st.chatHistory ++ [{ role := "user", content := jsTrim rawInput }]
    ∧ (sendMessage st rawInput hasImage (FetchResult.failure pre)).1.isProcessing = false := by
  refine ⟨?_, ?_, ?_⟩ <;>
    simp [sendMessage, h, isAssistantTurn, List.filter_append, List.filter_map,
      Function.comp]

/-- Witness for C5: a failed exchange with two chunks already streamed
(partial accumulator "Hi") still commits nothing beyond the user turn. -/
theorem claim5_transport_failure_policy_witness :
    submissionBlocked initState "hi" false = false
    ∧ (sendMessage initState "hi" false
          (FetchResult.failure [("\x7b\"response\":\"Hi\"\x7d\n").data])).2.filter isAssistantTurn
        = [DisplayEvent.assistantTurn errorText]
    ∧ (sendMessage initState "hi" false
          (FetchResult.failure [("\x7b\"response\":\"Hi\"\x7d\n").data])).1.chatHistory
        = initState.chatHistory ++ [{ role := "user", content := jsTrim "hi" }]
    ∧ (sendMessage initState "hi" false
          (FetchResult.failure [("\x7b\"response\":\"Hi\"\x7d\n").data])).1.isProcessing = false :=
  let H := claim5_transport_failure_policy initState "hi" false
      [("\x7b\"response\":\"Hi\"\x7d\n").data] (by decide)
  ⟨by decide, H.1, H.2.1, H.2.2⟩

theorem sendMessage_clears_processing (st : ClientState) (rawInput : String)
    (hasImage : Bool) (outcome : FetchResult) (h : st.isProcessing = false) :
    (sendMessage st rawInput hasImage outcome).1.isProcessing = false := by
  cases hb : submissionBlocked st rawInput hasImage
  · cases outcome <;> simp [sendMessage, hb]
  · simp [sendMessage, hb, h]

theorem runSession_not_processing : ∀ (subs : List Submission) (st : ClientState),
    st.isProcessing = false →
    (subs.foldl (fun st sub => (sendMessage st sub.rawInput sub.hasImage sub.outcome).1)
        st).isProcessing = false
| [], _, h => h
| sub :: rest, st, h =>
    runSession_not_processing rest _
      (sendMessage_clears_processing st sub.rawInput sub.hasImage sub.outcome h)

/-- Claim C6: the in-flight guard is false in the initial state, and
after any session — every sequence of submissions, whatever each
exchange's outcome (success, parse failures inside the stream, or
transport failure) — it is false again: it is never left permanently
set. -/
theorem claim6_in_flight_guard_always_cleared :
    initState.isProcessing = false
    ∧ ∀ subs : List Submission, (runSession subs).isProcessing = false :=
  ⟨rfl, fun subs => runSession_not_processing subs initState rfl⟩

/-- Claim C7: a line that fails JSON parsing contributes no delta, and
deleting it from the processed line sequence changes nothing — the
accumulator and the emitted events are those of the remaining lines, so
processing continues with the next line and a malformed line is never
fatal (the per-line handler is total; the thrown parse error is confined
to the per-line catch). -/
theorem claim7_malformed_line_never_fatal
    (acc : String) (evs : List String) (ls1 ls2 : List (List Char)) (bad : List Char)
    (h : jsonParse bad = none) :
    lineDelta bad = none
    ∧ processLines acc evs (ls1 ++ bad :: ls2) = processLines acc evs (ls1 ++ ls2) := by
  have hd : lineDelta bad = none := by simp [lineDelta, h]
  refine ⟨hd, ?_⟩
  rw [processLines_spec, processLines_spec]
  simp [List.filterMap_append, hd]

/-- Witness for C7: the malformed line "oops" between processing steps
changes nothing. -/
theorem claim7_malformed_line_never_fatal_witness :
    jsonParse ("oops").data = none
    ∧ lineDelta ("oops").data = none
    ∧ processLines "" [] [("oops").data, ("\x7b\"response\":\"Hi\"\x7d").data]
        = processLines "" [] [("\x7b\"response\":\"Hi\"\x7d").data] :=
  let H := claim7_malformed_line_never_fatal "" [] []
      [("\x7b\"response\":\"Hi\"\x7d").data] ("oops").data rfl
  ⟨rfl, H.1, H.2⟩

/-- Claim C8: a blocked submission — empty trimmed text with no
attachment, or any submission while a request is in flight — is a
complete no-op: the state (history and flag) is unchanged and no display
event is emitted, whatever the transport would have answered. -/
theorem claim8_blocked_submission_is_noop
    (st : ClientState) (rawInput : String) (hasImage : Bool) (outcome : FetchResult)
    (h : submissionBlocked st rawInput hasImage = true) :
    sendMessage st rawInput hasImage outcome = (st, []) := by
  simp [sendMessage, h]

/-- Witness for C8: whitespace-only input without attachment, and an
in-flight state, are both no-ops. -/
theorem claim8_blocked_submission_is_noop_witness :
    submissionBlocked initState "   " false = true
    ∧ sendMessage initState "   " false (FetchResult.success []) = (initState, [])
    ∧ submissionBlocked { chatHistory := [], isProcessing := true } "hi" false = true
    ∧ sendMessage { chatHistory := [], isProcessing := true } "hi" false
        (FetchResult.success []) = ({ chatHistory := [], isProcessing := true }, []) :=
  ⟨by decide,
    claim8_blocked_submission_is_noop initState "   " false (FetchResult.success []) (by decide),
    by decide,
    claim8_blocked_submission_is_noop { chatHistory := [], isProcessing := true } "hi" false
      (FetchResult.success []) (by decide)⟩

/-- Claim C9: the user message recorded in the conversation holds only
the trimmed input text — never the "[Image attached]" annotation the
display shows — so with an attachment the displayed user turn and the
recorded content differ, and with an attachment and no text the recorded
content is the empty string. -/
theorem claim9_history_gets_trimmed_text_only
    (st : ClientState) (rawInput : String) (outcome : FetchResult)
    (h : st.isProcessing = false) :
    ((sendMessage st rawInput true outcome).1.chatHistory.drop st.chatHistory.length).head?
        = some { role := "user", content := jsTrim rawInput }
    ∧ (sendMessage st rawInput true outcome).2.head?
        = some (DisplayEvent.userTurn (userDisplayContent (jsTrim rawInput) true))
    ∧ (jsTrim rawInput = "" → userDisplayContent (jsTrim rawInput) true = "[Image attached]") := by
  have hb : submissionBlocked st rawInput true = false := by
    simp [submissionBlocked, h]
  refine ⟨?_, ?_, ?_⟩
  · cases outcome <;>
      simp [sendMessage, hb, List.append_assoc, List.drop_left]
  · cases outcome <;> simp [sendMessage, hb]
  · intro he; simp [userDisplayContent, he]

/-- Witness for C9: attachment with empty text records content "" while
displaying "[Image attached]". -/
theorem claim9_history_gets_trimmed_text_only_witness :
    initState.isProcessing = false
    ∧ ((sendMessage initState "" true (FetchResult.failure [])).1.chatHistory.drop
          initState.chatHistory.length).head?
        = some { role := "user", content := jsTrim "" }
    ∧ (sendMessage initState "" true (FetchResult.failure [])).2.head?
        = some (DisplayEvent.userTurn (userDisplayContent (jsTrim "") true))
    ∧ (jsTrim "" = "" → userDisplayContent (jsTrim "") true = "[Image attached]") :=
  let H := claim9_history_gets_trimmed_text_only initState "" (FetchResult.failure []) rfl
  ⟨rfl, H.1, H.2.1, H.2.2⟩

/-- Claim C10: a line parsing as a JSON object whose `response` field is
present but falsy (for example the empty string) behaves exactly like a
line lacking the field: no delta, no event, accumulator and event list
unchanged, no error — the check is by truthiness, not presence. -/
theorem claim10_falsy_response_field_ignored
    (acc : String) (evs : List String) (line : List Char) (j v : Json)
    (hparse : jsonParse line = some j)
    (hfield : responseOf j = some v)
    (hfalsy : truthy v = false) :
    lineDelta line = none
    ∧ processLine acc line = (acc, [])
    ∧ processLines acc evs [line] = (acc, evs) := by
  have hd : lineDelta line = none := by simp [lineDelta, hparse, hfield, hfalsy]
  exact ⟨hd, by simp [processLine, hd], by simp [processLines, processLine, hd]⟩

/-- Witness for C10 at the line with an empty-string `response` field. -/
theorem claim10_falsy_response_field_ignored_witness :
    jsonParse ("\x7b\"response\":\"\"\x7d").data
        = some (Json.obj [("response", Json.str "")])
    ∧ truthy (Json.str "") = false
    ∧ processLine "" ("\x7b\"response\":\"\"\x7d").data = ("", [])
    ∧ processLines "" [] [("\x7b\"response\":\"\"\x7d").data] = ("", []) :=
  let H := claim10_falsy_response_field_ignored "" [] ("\x7b\"response\":\"\"\x7d").data
      (Json.obj [("response", Json.str "")]) (Json.str "") rfl rfl rfl
  ⟨rfl, rfl, H.2.1, H.2.2⟩
